import Mathlib

/-!
Verification of the segmentation and constrained-delivery pipeline of the
Notes-to-OneNote exporter.  The definitions below are a shallow embedding of
the Python sources:

* `src/main/services/dxl_to_page_material.py` — the document tree walker
  (`richtext_item_to_html_and_segment`, `make_anchor`, `_attref_to_segment`,
  `_picture_to_segment`, `_table_to_html`, `create_materials_from_dxl`);
* `src/main/services/segments_body.py` — first-chunk body injection
  (`_inject_first_segments`, `_segment_content_html`);
* `src/main/services/graph_client.py` — the wire delivery client
  (`GraphClient._request_with_retry`, `create_onenote_page`,
  `update_onenote_page_segments`).

Bytes are modelled as `List Nat`, XML elements as pre-parsed node records,
and the external base64 decoder (`base64.b64decode`) as an explicit function
parameter `decode : String → Option (List Nat)` (`none` models the decoder
raising an exception).
-/

namespace NotesToOneNote

/-! ## Decimal formatting (Python `f"{n}"` and `f"{n:03d}"`) -/

/-- Numeric value of a decimal digit character. -/
def digitVal (c : Char) : Nat := c.toNat - 48

/-- Little-endian decimal digit characters of `n`; the fuel argument bounds
the number of divisions (taking fuel `= n` is always enough for `n ≥ 1`). -/
def decCharsRev : Nat → Nat → List Char
  | 0, _ => []
  | fuel + 1, n => if n = 0 then [] else Nat.digitChar (n % 10) :: decCharsRev fuel (n / 10)

/-- Big-endian decimal digit characters of `n` (Python `str(n)`). -/
def decChars (n : Nat) : List Char := if n = 0 then ['0'] else (decCharsRev n n).reverse

/-- Decimal rendering of a natural number, as Python `f"{n}"`. -/
def decStr (n : Nat) : String := String.mk (decChars n)

/-- Left-pad a digit string with zeros to width 3 (Python `f"{n:03d}"`). -/
def padChars3 (l : List Char) : List Char := List.replicate (3 - l.length) '0' ++ l

/-- Segment/anchor id for counter value `i`: Python `f"seg-{seg_i:03d}"`
(`dxl_to_page_material.py`, lines 229 and 257). -/
def segIdOf (i : Nat) : String := String.mk ('s' :: 'e' :: 'g' :: '-' :: padChars3 (decChars i))

/-- Decimal parser used only to invert `decChars` in proofs. -/
def parseDec (l : List Char) : Nat := l.foldl (fun a c => a * 10 + digitVal c) 0

theorem digitVal_digitChar : ∀ m < 10, digitVal (Nat.digitChar m) = m := by decide

theorem decCharsRev_foldr (fuel : Nat) :
    ∀ n a, n ≤ fuel →
      (decCharsRev fuel n).foldr (fun c a => a * 10 + digitVal c) a
        = a * 10 ^ (decCharsRev fuel n).length + n := by
  induction fuel with
  | zero =>
      intro n a hn
      interval_cases n
      simp [decCharsRev]
  | succ fuel ih =>
      intro n a hn
      by_cases h0 : n = 0
      · subst h0; simp [decCharsRev]
      · have hdiv : n / 10 < n := Nat.div_lt_self (Nat.pos_of_ne_zero h0) (by norm_num)
        have hle : n / 10 ≤ fuel := by omega
        have hih := ih (n / 10) a hle
        simp only [decCharsRev, if_neg h0, List.foldr_cons, List.length_cons]
        rw [hih, digitVal_digitChar (n % 10) (Nat.mod_lt n (by norm_num))]
        have hmod := Nat.div_add_mod n 10
        ring_nf
        omega

theorem parseDec_decChars (n : Nat) : parseDec (decChars n) = n := by
  by_cases h0 : n = 0
  · subst h0; simp [parseDec, decChars, digitVal]
  · have h := decCharsRev_foldr n n 0 (le_refl n)
    simp only [parseDec, decChars, if_neg h0, List.foldl_reverse]
    simpa using h

theorem parseDec_padChars3 (l : List Char) :
    parseDec (padChars3 l) = parseDec l := by
  have hz : ∀ k, List.foldl (fun a c => a * 10 + digitVal c) 0 (List.replicate k '0') = 0 := by
    intro k
    induction k with
    | zero => simp
    | succ k ih => simpa [List.replicate_succ, digitVal] using ih
  simp [parseDec, padChars3, List.foldl_append, hz]

theorem segIdOf_injective : Function.Injective segIdOf := by
  intro a b h
  have hdata : padChars3 (decChars a) = padChars3 (decChars b) := by
    have := congrArg String.data h
    simpa [segIdOf] using this
  have := congrArg parseDec hdata
  rwa [parseDec_padChars3, parseDec_padChars3, parseDec_decChars, parseDec_decChars] at this

/-! ## Data model (`src/main/models/models.py`) -/

/-- Segment kind: the `Literal["image", "attachment"]` tag. -/
inductive SegKind where
  | image
  | attachment
deriving DecidableEq

/-- Binary part to embed into a page (`BinaryPart` dataclass). -/
structure BinaryPart where
  kind : SegKind
  filename : String
  content_type : String
  data : List Nat
  origin_field : String
  width : Option Nat := none
  height : Option Nat := none
deriving DecidableEq

/-- One binary-bearing segment with its position anchor (`Segment` dataclass). -/
structure Segment where
  segment_id : String
  kind : SegKind
  binary_part : BinaryPart
deriving DecidableEq

/-- Attachment-extractor output for one file: entry of the
`attachment_by_name` resolution table (filename, mime, raw bytes). -/
structure Attachment where
  filename : String
  mime : Option String
  content : List Nat
deriving DecidableEq

/-- Python `x or d` on an optional string (`None` and `""` are falsy). -/
def pyOrStr (x : Option String) (d : String) : String :=
  match x with
  | some s => if s = "" then d else s
  | none => d

/-- Python `s or d` on a plain string (`""` is falsy). -/
def pyOrS (s d : String) : String := if s = "" then d else s

/-- Python `str.strip()`: drop leading and trailing whitespace. -/
def pyStrip (s : String) : String :=
  String.mk ((s.data.dropWhile Char.isWhitespace).reverse.dropWhile Char.isWhitespace).reverse

/-! ## HTML rendering helpers (`html.escape`, `make_anchor`, `_table_to_html`) -/

/-- Expansion of one character under Python `html.escape(s, quote=True)`. -/
def escChar (c : Char) : List Char :=
  if c = '&' then "&amp;".data
  else if c = '<' then "&lt;".data
  else if c = '>' then "&gt;".data
  else if c = '\"' then "&quot;".data
  else if c = '\x27' then "&#x27;".data
  else [c]

/-- Python `html.escape(s, quote=True)` (the default used throughout). -/
def htmlEscape (s : String) : String := String.mk (s.data.map escChar).flatten

/-- Empty anchor-bearing placeholder `make_anchor`
(`dxl_to_page_material.py`, lines 34-36). -/
def make_anchor (segId : String) : String :=
  "<div id=\x27" ++ htmlEscape segId ++ "\x27 data-id=\x27" ++ htmlEscape segId ++ "\x27></div>"

/-- Cell markup of `_table_to_html` (text-only; binaries ignored). -/
def cellHtml (txt : String) : String :=
  let safe := if txt = "" then "" else (htmlEscape txt).replace "\n" "<br/>"
  "<td style=\x27border:1px solid #ddd; padding:6px; vertical-align:top;\x27>" ++ safe ++ "</td>"

/-- Row markup of `_table_to_html`. -/
def rowHtml (cells : List String) : String :=
  "<tr>" ++ String.join (cells.map cellHtml) ++ "</tr>"

/-- Table markup of `_table_to_html` (rows given as extracted cell texts). -/
def tableToHtml (rows : List (List String)) : String :=
  "<div style=\x27margin:10px 0;\x27>"
    ++ "<table style=\x27border-collapse:collapse; width:100%;\x27>"
    ++ String.join (rows.map rowHtml)
    ++ "</table>" ++ "</div>"

/-- One item of the body markup list `out` accumulated by the walker, and the
filled form produced later by `_inject_first_segments`.  Rendered by
`BodyItem.render`; the walker joins renderings with a newline. -/
inductive BodyItem where
  | anchor (segId : String)
  | filled (segId : String) (content : String)
  | text (txt : String)
  | table (htmlStr : String)
deriving DecidableEq

/-- Markup of one body item, matching the strings appended by the walker
(`out.append(make_anchor(seg_id))`, `out.append(f"<p>...</p>")`, table html)
and the substitution result of `_inject_first_segments`. -/
def BodyItem.render : BodyItem → String
  | .anchor segId => make_anchor segId
  | .filled segId content =>
      "<div id=\x27" ++ htmlEscape segId ++ "\x27 data-id=\x27" ++ htmlEscape segId ++ "\x27>"
        ++ content ++ "</div>"
  | .text txt => "<p>" ++ htmlEscape txt ++ "</p>"
  | .table htmlStr => htmlStr

/-- Body markup string: Python `"\n".join(out)`. -/
def renderBody (items : List BodyItem) : String :=
  String.intercalate "\n" (items.map BodyItem.render)

/-! ## Walker input node model

The XML elements the walker inspects, pre-parsed: an `attachmentref` element
(its `displayname`/`name` attributes), a `picture` element (its `width` and
`height` attributes and its binary children with tag and base64 text), and
the direct children of a `richtext` element (`par` nodes carrying their
attachmentref descendants in document order, their first picture descendant,
and their binary-free text per `_par_text_without_binary`; `table` nodes
carrying stripped cell texts; anything else is ignored by the walk loop). -/

structure AttRefEl where
  displayname : Option String
  name : Option String
deriving DecidableEq

structure PicChildEl where
  tag : String
  text : Option String
deriving DecidableEq

structure PictureEl where
  width : Option String
  height : Option String
  children : List PicChildEl
deriving DecidableEq

inductive RtChild where
  | par (attrefs : List AttRefEl) (pic : Option PictureEl) (text : String)
  | table (rows : List (List String))
  | other (tag : String)
deriving DecidableEq

/-- A DXL `item` element: the `name` attribute and the contained `richtext`
element (when present) as its child list. -/
structure RichTextItem where
  name : Option String
  richtext : Option (List RtChild)

/-- Resolved filename of one attachmentref:
`(a.get("displayname") or a.get("name") or "").strip()`. -/
def attrefFilename (a : AttRefEl) : String :=
  pyStrip (pyOrStr a.displayname (pyOrStr a.name ""))

/-- The `_BINARY_TAG_TO_MIME` table. -/
def binaryTagToMime (tag : String) : Option String :=
  if tag = "gif" then some "image/gif"
  else if tag = "png" then some "image/png"
  else if tag = "jpeg" then some "image/jpeg"
  else if tag = "jpg" then some "image/jpeg"
  else none

/-- First maximal run of digit characters, as `re.search(r"(\d+)", v)`. -/
def digitRun : List Char → Option (List Char)
  | [] => none
  | c :: cs => if c.isDigit then some (c :: cs.takeWhile (·.isDigit)) else digitRun cs

/-- The `_safe_px` helper: first digit run of the attribute value, as a Nat. -/
def safe_px (v : Option String) : Option Nat :=
  match v with
  | none => none
  | some s => if s = "" then none else (digitRun s.data).map parseDec

/-- The `_attref_to_segment` helper: resolve `filename` against the
attachment table; `none` when the table has no entry (anchor stays empty). -/
def attref_to_segment (filename : String) (segmentId : String)
    (attachment_by_name : List (String × Attachment)) : Option Segment :=
  match attachment_by_name.lookup filename with
  | none => none
  | some a =>
      some { segment_id := segmentId, kind := SegKind.attachment,
             binary_part :=
               { kind := SegKind.attachment, filename := a.filename,
                 content_type := pyOrStr a.mime "application/octet-stream",
                 data := a.content, origin_field := "$FILE" } }

/-- Child scan of `_picture_to_segment`: first child with a supported tag and
nonempty base64 text decides the outcome; a decoding failure aborts with
`none` (the Python `except: return None`). -/
def pictureLoop (decode : String → Option (List Nat)) (fieldName segId : String)
    (w h : Option Nat) : List PicChildEl → Option Segment
  | [] => none
  | c :: rest =>
      match binaryTagToMime c.tag with
      | none => pictureLoop decode fieldName segId w h rest
      | some mime =>
          let b64 := pyStrip (c.text.getD "")
          if b64 = "" then pictureLoop decode fieldName segId w h rest
          else
            match decode b64 with
            | none => none
            | some data =>
                some { segment_id := segId, kind := SegKind.image,
                       binary_part :=
                         { kind := SegKind.image, filename := segId ++ "." ++ c.tag,
                           content_type := mime, data := data, origin_field := fieldName,
                           width := w, height := h } }

/-- The `_picture_to_segment` helper. -/
def picture_to_segment (decode : String → Option (List Nat)) (fieldName segId : String)
    (pic : PictureEl) : Option Segment :=
  pictureLoop decode fieldName segId (safe_px pic.width) (safe_px pic.height) pic.children

/-- Loop over the attachmentrefs of one `par`
(`dxl_to_page_material.py`, lines 223-245): skip empty filenames; otherwise
emit the anchor, attempt resolution, keep the segment on success, and
advance the counter. -/
def attrefLoop (attachment_by_name : List (String × Attachment)) :
    List AttRefEl → Nat → List BodyItem × List Segment × Nat
  | [], i => ([], [], i)
  | a :: rest, i =>
      let fn := attrefFilename a
      if fn = "" then attrefLoop attachment_by_name rest i
      else
        let segId := segIdOf i
        let s? := attref_to_segment fn segId attachment_by_name
        let r := attrefLoop attachment_by_name rest (i + 1)
        (BodyItem.anchor segId :: r.1,
         (match s? with | some s => s :: r.2.1 | none => r.2.1),
         r.2.2)

/-- Processing of one `richtext` child (one iteration of the walk loop,
`dxl_to_page_material.py`, lines 212-286). -/
def stepNode (fieldName : String) (attachment_by_name : List (String × Attachment))
    (decode : String → Option (List Nat)) :
    RtChild → Nat → List BodyItem × List Segment × Nat
  | .par attrefs pic txt, i =>
      if attrefs = [] then
        match pic with
        | some p =>
            let segId := segIdOf i
            match picture_to_segment decode fieldName segId p with
            | some s => ([BodyItem.anchor segId], [s], i + 1)
            | none => ([BodyItem.anchor segId], [], i + 1)
        | none => ([BodyItem.text txt], [], i)
      else attrefLoop attachment_by_name attrefs i
  | .table rows, i => ([BodyItem.table (tableToHtml rows)], [], i)
  | .other _, i => ([], [], i)

/-- Walk of a `richtext` child list in document order, threading the segment
counter and accumulating body items and segments. -/
def walkNodes (fieldName : String) (attachment_by_name : List (String × Attachment))
    (decode : String → Option (List Nat)) :
    List RtChild → Nat → List BodyItem × List Segment × Nat
  | [], i => ([], [], i)
  | n :: rest, i =>
      let r1 := stepNode fieldName attachment_by_name decode n i
      let r2 := walkNodes fieldName attachment_by_name decode rest r1.2.2
      (r1.1 ++ r2.1, r1.2.1 ++ r2.2.1, r2.2.2)

/-- The walker `richtext_item_to_html_and_segment`: derive the field name
(`(item_el.get("name") or "unknown").strip()`), skip items without a
`richtext` child, else walk the children. -/
def richtext_item_to_html_and_segment (item : RichTextItem)
    (attachment_by_name : List (String × Attachment))
    (decode : String → Option (List Nat)) (seg_i : Nat) :
    List BodyItem × List Segment × Nat :=
  let fieldName := pyStrip (pyOrStr item.name "unknown")
  match item.richtext with
  | none => ([], [], seg_i)
  | some nodes => walkNodes fieldName attachment_by_name decode nodes seg_i

/-- Field loop of `create_materials_from_dxl` (lines 314-332): for each name
in `RICH_FIELDS`, the looked-up item (`none` models `root.find` returning no
item, which is skipped); the walker threads the counter across fields and
segments of all fields are concatenated. -/
def create_materials_segments (attachment_by_name : List (String × Attachment))
    (decode : String → Option (List Nat)) :
    List (Option RichTextItem) → Nat → List Segment
  | [], _ => []
  | none :: rest, i => create_materials_segments attachment_by_name decode rest i
  | some item :: rest, i =>
      let r := richtext_item_to_html_and_segment item attachment_by_name decode i
      r.2.1 ++ create_materials_segments attachment_by_name decode rest r.2.2

/-- Segments collected by `create_materials_from_dxl`: the field loop starts
with `seg_i = 1`. -/
def create_materials_all_segments (attachment_by_name : List (String × Attachment))
    (decode : String → Option (List Nat)) (fields : List (Option RichTextItem)) :
    List Segment :=
  create_materials_segments attachment_by_name decode fields 1

/-! ## Chunker (`create_onenote_page`, `graph_client.py` lines 336-381) -/

/-- The per-request binary ceiling (`graph_client.py`, line 345). -/
def MAX_BIN_PER_REQUEST : Nat := 3

/-- The loop `for off in range(0, len(restSeg), c): chunk = restSeg[off:off+c]`:
offsets `0, c, 2c, …` below the length, each yielding the slice of size up to
`c` starting there.  Python `range(0, L, c)` has `⌈L/c⌉` elements. -/
def chunksByOffset (c : Nat) (xs : List α) : List (List α) :=
  (List.range' 0 ((xs.length + c - 1) / c) c).map fun off => (xs.drop off).take c

/-- First chunk: `all_segments[:MAX_BIN_PER_REQUEST]`. -/
def firstSeg (segs : List Segment) : List Segment := segs.take MAX_BIN_PER_REQUEST

/-- Remaining segments: `all_segments[MAX_BIN_PER_REQUEST:]`. -/
def restSeg (segs : List Segment) : List Segment := segs.drop MAX_BIN_PER_REQUEST

/-- All chunks the delivery of one page uses, in order: the create-request
chunk followed by one chunk per append request. -/
def pageChunks (segs : List Segment) : List (List Segment) :=
  firstSeg segs :: chunksByOffset MAX_BIN_PER_REQUEST (restSeg segs)

/-! ## First-chunk body injection (`segments_body.py`) -/

/-- Inline style of `_segment_content_html` for images (`bp.width`/`bp.height`
are falsy when `None` or `0`). -/
def styleOf (bp : BinaryPart) : String :=
  "max-width:100%;"
    ++ (match bp.width with
        | some w => if w = 0 then "" else " width:" ++ decStr w ++ "px;"
        | none => "")
    ++ (match bp.height with
        | some h => if h = 0 then "" else " height:" ++ decStr h ++ "px;"
        | none => "")

/-- The `_segment_content_html` helper (`segments_body.py`, lines 57-75):
embed markup referencing the request-local binary part name. -/
def segment_content_html (seg : Segment) (partName : String) : String :=
  let bp := seg.binary_part
  match bp.kind with
  | SegKind.image =>
      "<img src=\x27name:" ++ htmlEscape partName ++ "\x27 style=\x27" ++ styleOf bp ++ "\x27/>"
  | SegKind.attachment =>
      "<div style=\x27margin:8px 0; padding:10px; border:1px solid #e3e3e3; border-radius:10px;\x27>"
        ++ "<object data=\x27name:" ++ htmlEscape partName
        ++ "\x27 data-attachment=\x27" ++ htmlEscape bp.filename
        ++ "\x27 type=\x27" ++ htmlEscape (pyOrS bp.content_type "application/octet-stream")
        ++ "\x27></object>" ++ "</div>"

/-- The regex substitution `pat.subn(..., out, count=1)` at body-item level:
replace the first still-empty anchor whose `data-id` equals `segId` with the
same open tag around `content`; return the replacement count (0 or 1). -/
def replaceFirstAnchor : List BodyItem → String → String → List BodyItem × Nat
  | [], _, _ => ([], 0)
  | BodyItem.anchor a :: rest, segId, content =>
      if a = segId then (BodyItem.filled a content :: rest, 1)
      else
        let r := replaceFirstAnchor rest segId content
        (BodyItem.anchor a :: r.1, r.2)
  | item :: rest, segId, content =>
      let r := replaceFirstAnchor rest segId content
      (item :: r.1, r.2)

/-- Loop of `_inject_first_segments` (`segments_body.py`, lines 95-108):
`enumerate(segments, start=1)`, with the part name `f"{name_prefix}{i}"`,
unconditional `parts.append`, and at most one body substitution per segment. -/
def injectFirstGo (namePfx : String) (body : List BodyItem) (i : Nat) :
    List Segment → List BodyItem × List (String × BinaryPart)
  | [] => (body, [])
  | seg :: rest =>
      let partName := namePfx ++ decStr i
      let content := segment_content_html seg partName
      let body1 := (replaceFirstAnchor body seg.segment_id content).1
      let r := injectFirstGo namePfx body1 (i + 1) rest
      (r.1, (partName, seg.binary_part) :: r.2)

/-- The `_inject_first_segments` helper: resolve the first chunk into the
body and collect its `(part_name, binary_part)` pairs. -/
def inject_first_segments (body : List BodyItem) (segments : List Segment)
    (namePfx : String := "p") : List BodyItem × List (String × BinaryPart) :=
  injectFirstGo namePfx body 1 segments

/-! ## Wire requests (`create_onenote_page`, `update_onenote_page_segments`) -/

/-- One patch command of the `Commands` part of an append request. -/
structure PatchCommand where
  target : String
  action : String
  content : String
deriving DecidableEq

/-- A multipart request as the delivery client issues it: the create POST
(one `Presentation` markup part plus binary parts) or the append PATCH (one
`Commands` part plus binary parts).  `Presentation` and `Commands` are not
binary parts. -/
inductive WireRequest where
  | create (presentationHtml : String) (binParts : List (String × BinaryPart))
  | append (commands : List PatchCommand) (binParts : List (String × BinaryPart))
deriving DecidableEq

/-- Number of binary parts of a wire request. -/
def WireRequest.binCount : WireRequest → Nat
  | .create _ ps => ps.length
  | .append _ ps => ps.length

/-- Per-segment content markup built inline by `update_onenote_page_segments`
(`graph_client.py`, lines 290-310). -/
def update_content_html (seg : Segment) (partName : String) : String :=
  let bp := seg.binary_part
  match bp.kind with
  | SegKind.image =>
      "<div style=\x27margin:8px 0;\x27>"
        ++ "<img src=\x27name:" ++ htmlEscape partName ++ "\x27 style=\x27" ++ styleOf bp
        ++ "\x27/>" ++ "</div>"
  | SegKind.attachment =>
      "<div style=\x27margin:8px 0; padding:10px; border:1px solid #e3e3e3; "
        ++ "border-radius:10px; background:#fff;\x27>"
        ++ "<object data=\x27name:" ++ htmlEscape partName
        ++ "\x27 data-attachment=\x27" ++ htmlEscape bp.filename
        ++ "\x27 type=\x27" ++ htmlEscape (pyOrS bp.content_type "application/octet-stream")
        ++ "\x27></object>" ++ "</div>"

/-- Loop of `update_onenote_page_segments` (`for i, seg in
enumerate(segments, start=1)`): one patch command targeting `#segment_id`
with action `append`, and one binary part `p<i>`, per segment. -/
def updateGo (namePfx : String) (i : Nat) :
    List Segment → List PatchCommand × List (String × BinaryPart)
  | [] => ([], [])
  | seg :: rest =>
      let partName := namePfx ++ decStr i
      let r := updateGo namePfx (i + 1) rest
      ({ target := "#" ++ seg.segment_id, action := "append",
         content := update_content_html seg partName } :: r.1,
       (partName, seg.binary_part) :: r.2)

/-- The append PATCH request built by `update_onenote_page_segments` for one
chunk of segments. -/
def update_page_request (segments : List Segment) (namePfx : String := "p") : WireRequest :=
  let r := updateGo namePfx 1 segments
  WireRequest.append r.1 r.2

/-- Page payload (`PagePayload` dataclass), with the body markup kept as the
walker's item list. -/
structure PagePayload where
  page_title : String
  body_html : List BodyItem
  segment_list : List Segment

/-- Presentation document of the create request (the surrounding XHTML of
`create_onenote_page`; the f-string's insignificant indentation is omitted). -/
def xhtmlOf (title bodyHtml : String) : String :=
  "<!DOCTYPE html><html><head><title>" ++ htmlEscape title
    ++ "</title></head><body>" ++ bodyHtml ++ "</body></html>"

/-- All wire requests `create_onenote_page` issues for one payload, in order:
the create POST with the first `MAX_BIN_PER_REQUEST` segments injected, then
one append PATCH per remaining chunk. -/
def create_onenote_page_requests (payload : PagePayload) : List WireRequest :=
  let all_segments := payload.segment_list
  let fs := all_segments.take MAX_BIN_PER_REQUEST
  let rs := all_segments.drop MAX_BIN_PER_REQUEST
  let inj := inject_first_segments payload.body_html fs "p"
  WireRequest.create (xhtmlOf payload.page_title (renderBody inj.1)) inj.2
    :: (chunksByOffset MAX_BIN_PER_REQUEST rs).map (fun chunk => update_page_request chunk "p")

/-! ## Retry policy (`GraphClient._request_with_retry`) -/

/-- The `GraphRetryPolicy` dataclass. -/
structure GraphRetryPolicy where
  max_retries : Nat := 5
  retry_statuses : List Nat := [429, 503]
  default_retry_after : Nat := 2
deriving DecidableEq

/-- Outcome of `_request_with_retry`; `requestIndex` is the 0-based index of
the attempt that produced the outcome (so `requestIndex = k` means `k + 1`
requests were sent, i.e. `k` retries). -/
inductive RequestOutcome where
  | success (status requestIndex : Nat)
  | unauthorized (requestIndex : Nat)
  | httpError (status requestIndex : Nat)
  | retriesExhausted
deriving DecidableEq

/-- The attempt loop of `_request_with_retry` (`graph_client.py`, lines
109-179): `server k` is the status code the server answers to the `k`-th
request.  Retryable statuses (`retry_statuses`) sleep and loop; 401 raises
immediately; other non-2xx statuses raise via `raise_for_status`; otherwise
the response is returned.  Exhausting the bound raises. -/
def requestLoop (policy : GraphRetryPolicy) (server : Nat → Nat) :
    Nat → Nat → RequestOutcome
  | 0, _ => RequestOutcome.retriesExhausted
  | fuel + 1, k =>
      let s := server k
      if s ∈ policy.retry_statuses then requestLoop policy server fuel (k + 1)
      else if s = 401 then RequestOutcome.unauthorized k
      else if 400 ≤ s then RequestOutcome.httpError s k
      else RequestOutcome.success s k

/-- The `_request_with_retry` entry point: up to `max_retries` attempts,
starting with request index 0. -/
def request_with_retry (policy : GraphRetryPolicy) (server : Nat → Nat) : RequestOutcome :=
  requestLoop policy server policy.max_retries 0

/-! ## Placeholder bookkeeping -/

/-- Anchor ids of the placeholders occurring in a body, in body order. -/
def anchorIds (items : List BodyItem) : List String :=
  items.filterMap fun it =>
    match it with
    | BodyItem.anchor segId => some segId
    | _ => none

/-- Ids `segIdOf i, segIdOf (i+1), …` of `k` consecutive counter values. -/
def idsFrom (i : Nat) : Nat → List String
  | 0 => []
  | k + 1 => segIdOf i :: idsFrom (i + 1) k

/-- Number of attempted binary extractions among the attachmentrefs of one
paragraph: one per reference with a nonempty resolved filename. -/
def parAttemptCount : List AttRefEl → Nat
  | [] => 0
  | a :: rest => (if attrefFilename a = "" then 0 else 1) + parAttemptCount rest

/-- Number of attempted binary extractions while processing one node. -/
def nodeAttempts : RtChild → Nat
  | .par attrefs pic _ =>
      if attrefs = [] then (match pic with | some _ => 1 | none => 0)
      else parAttemptCount attrefs
  | .table _ => 0
  | .other _ => 0

/-- Number of attempted binary extractions over a node sequence. -/
def attempts : List RtChild → Nat
  | [] => 0
  | n :: rest => nodeAttempts n + attempts rest

theorem anchorIds_append (a b : List BodyItem) :
    anchorIds (a ++ b) = anchorIds a ++ anchorIds b := by
  simp [anchorIds, List.filterMap_append]

theorem anchorIds_map_anchor (l : List String) :
    anchorIds (l.map BodyItem.anchor) = l := by
  induction l with
  | nil => rfl
  | cons x xs ih => simp [anchorIds] at ih ⊢; exact ih

theorem idsFrom_append (m n i : Nat) :
    idsFrom i (m + n) = idsFrom i m ++ idsFrom (i + m) n := by
  induction m generalizing i with
  | zero => simp [idsFrom]
  | succ m ih =>
      have h1 : m + 1 + n = (m + n) + 1 := by omega
      rw [h1]
      show segIdOf i :: idsFrom (i + 1) (m + n) = _
      rw [ih (i + 1)]
      have h2 : i + 1 + m = i + (m + 1) := by omega
      simp [idsFrom, h2]

theorem mem_idsFrom {s : String} {i k : Nat} :
    s ∈ idsFrom i k ↔ ∃ j, j < k ∧ s = segIdOf (i + j) := by
  induction k generalizing i with
  | zero => simp [idsFrom]
  | succ k ih =>
      simp only [idsFrom, List.mem_cons, ih]
      constructor
      · rintro (h | ⟨j, hj, rfl⟩)
        · exact ⟨0, by omega, by simpa using h⟩
        · exact ⟨j + 1, by omega, by rw [show i + (j + 1) = i + 1 + j by omega]⟩
      · rintro ⟨j, hj, rfl⟩
        match j with
        | 0 => exact Or.inl (by simp)
        | j + 1 => exact Or.inr ⟨j, by omega, by rw [show i + 1 + j = i + (j + 1) by omega]⟩

theorem idsFrom_nodup (i k : Nat) : (idsFrom i k).Nodup := by
  induction k generalizing i with
  | zero => simp [idsFrom]
  | succ k ih =>
      refine List.nodup_cons.2 ⟨?_, ih (i + 1)⟩
      intro hmem
      obtain ⟨j, _, hj⟩ := mem_idsFrom.1 hmem
      have := segIdOf_injective hj
      omega

theorem length_idsFrom (i k : Nat) : (idsFrom i k).length = k := by
  induction k generalizing i with
  | zero => rfl
  | succ k ih => simp [idsFrom, ih]

theorem attref_to_segment_id {fn sid : String} {abn : List (String × Attachment)}
    {s : Segment} (h : attref_to_segment fn sid abn = some s) :
    s.segment_id = sid := by
  unfold attref_to_segment at h
  cases habn : abn.lookup fn with
  | none => rw [habn] at h; cases h
  | some a => rw [habn] at h; cases h; rfl

theorem pictureLoop_id {decode : String → Option (List Nat)} {fieldName segId : String}
    {w h : Option Nat} {s : Segment} :
    ∀ {cs : List PicChildEl}, pictureLoop decode fieldName segId w h cs = some s →
      s.segment_id = segId := by
  intro cs
  induction cs with
  | nil => intro hc; cases hc
  | cons c rest ih =>
      intro hc
      unfold pictureLoop at hc
      cases hm : binaryTagToMime c.tag with
      | none => rw [hm] at hc; exact ih hc
      | some mime =>
          rw [hm] at hc
          simp only at hc
          by_cases hb : pyStrip (c.text.getD "") = ""
          · rw [if_pos hb] at hc; exact ih hc
          · rw [if_neg hb] at hc
            cases hd : decode (pyStrip (c.text.getD "")) with
            | none => rw [hd] at hc; cases hc
            | some data => rw [hd] at hc; cases hc; rfl

theorem picture_to_segment_id {decode : String → Option (List Nat)}
    {fieldName segId : String} {p : PictureEl} {s : Segment}
    (h : picture_to_segment decode fieldName segId p = some s) :
    s.segment_id = segId := pictureLoop_id h

/-- Invariant of the attachmentref loop: the emitted body items are exactly
the anchors of the consecutive counter values, the counter advances by the
number of nonempty-filename references, and the produced segments carry a
subsequence of those ids, in order. -/
theorem attrefLoop_spec (abn : List (String × Attachment)) :
    ∀ (refs : List AttRefEl) (i : Nat),
      (attrefLoop abn refs i).1 = (idsFrom i (parAttemptCount refs)).map BodyItem.anchor
      ∧ (attrefLoop abn refs i).2.2 = i + parAttemptCount refs
      ∧ List.Sublist ((attrefLoop abn refs i).2.1.map Segment.segment_id)
          (idsFrom i (parAttemptCount refs)) := by
  intro refs
  induction refs with
  | nil => intro i; exact ⟨rfl, rfl, by simp [attrefLoop, parAttemptCount, idsFrom]⟩
  | cons a rest ih =>
      intro i
      by_cases hfn : attrefFilename a = ""
      · have hcnt : parAttemptCount (a :: rest) = parAttemptCount rest := by
          simp [parAttemptCount, hfn]
        have hloop : attrefLoop abn (a :: rest) i = attrefLoop abn rest i := by
          simp [attrefLoop, hfn]
        rw [hloop, hcnt]
        exact ih i
      · have hcnt : parAttemptCount (a :: rest) = parAttemptCount rest + 1 := by
          simp [parAttemptCount, hfn]; omega
        have hids : idsFrom i (parAttemptCount (a :: rest))
            = segIdOf i :: idsFrom (i + 1) (parAttemptCount rest) := by
          rw [hcnt]; rfl
        obtain ⟨ih1, ih2, ih3⟩ := ih (i + 1)
        refine ⟨?_, ?_, ?_⟩
        · simp only [attrefLoop, if_neg hfn, hids, List.map_cons]
          cases hs : attref_to_segment (attrefFilename a) (segIdOf i) abn <;>
            simp [hs, ih1]
        · simp only [attrefLoop, if_neg hfn, hcnt]
          cases hs : attref_to_segment (attrefFilename a) (segIdOf i) abn <;>
            simp [hs, ih2] <;> omega
        · simp only [attrefLoop, if_neg hfn, hids]
          cases hs : attref_to_segment (attrefFilename a) (segIdOf i) abn with
          | none => simpa [hs] using ih3.cons (segIdOf i)
          | some s =>
              have : s.segment_id = segIdOf i := attref_to_segment_id hs
              simpa [hs, this] using ih3.cons₂ (segIdOf i)

/-- Invariant of one walk-loop iteration. -/
theorem stepNode_spec (fieldName : String) (abn : List (String × Attachment))
    (decode : String → Option (List Nat)) (n : RtChild) (i : Nat) :
    anchorIds (stepNode fieldName abn decode n i).1 = idsFrom i (nodeAttempts n)
    ∧ (stepNode fieldName abn decode n i).2.2 = i + nodeAttempts n
    ∧ List.Sublist ((stepNode fieldName abn decode n i).2.1.map Segment.segment_id)
        (idsFrom i (nodeAttempts n)) := by
  cases n with
  | par attrefs pic txt =>
      by_cases hrefs : attrefs = []
      · subst hrefs
        cases pic with
        | none => exact ⟨by simp [stepNode, anchorIds, nodeAttempts, idsFrom], by
            simp [stepNode, nodeAttempts], by simp [stepNode, nodeAttempts, idsFrom]⟩
        | some p =>
            have hids : idsFrom i (nodeAttempts (RtChild.par [] (some p) txt))
                = [segIdOf i] := by simp [nodeAttempts, idsFrom]
            cases hs : picture_to_segment decode fieldName (segIdOf i) p with
            | none =>
                refine ⟨?_, ?_, ?_⟩ <;>
                  simp [stepNode, hs, anchorIds, nodeAttempts, idsFrom]
            | some s =>
                have hid : s.segment_id = segIdOf i := picture_to_segment_id hs
                refine ⟨?_, ?_, ?_⟩ <;>
                  simp [stepNode, hs, anchorIds, nodeAttempts, idsFrom, hid]
      · have h1 : stepNode fieldName abn decode (RtChild.par attrefs pic txt) i
            = attrefLoop abn attrefs i := by simp [stepNode, hrefs]
        have h2 : nodeAttempts (RtChild.par attrefs pic txt) = parAttemptCount attrefs := by
          simp [nodeAttempts, hrefs]
        obtain ⟨a1, a2, a3⟩ := attrefLoop_spec abn attrefs i
        exact ⟨by rw [h1, h2, a1, anchorIds_map_anchor], by rw [h1, h2]; exact a2,
               by rw [h1, h2]; exact a3⟩
  | table rows =>
      exact ⟨by simp [stepNode, anchorIds, nodeAttempts, idsFrom],
             by simp [stepNode, nodeAttempts],
             by simp [stepNode, nodeAttempts, idsFrom]⟩
  | other tag =>
      exact ⟨by simp [stepNode, anchorIds, nodeAttempts, idsFrom],
             by simp [stepNode, nodeAttempts],
             by simp [stepNode, nodeAttempts, idsFrom]⟩

/-- Invariant of the whole walk: placeholders are exactly the anchors of the
counter values `i, …, i + attempts - 1` in order; the counter advances by the
attempt count; the produced segments carry a subsequence of those ids. -/
theorem walkNodes_spec (fieldName : String) (abn : List (String × Attachment))
    (decode : String → Option (List Nat)) :
    ∀ (nodes : List RtChild) (i : Nat),
      anchorIds (walkNodes fieldName abn decode nodes i).1 = idsFrom i (attempts nodes)
      ∧ (walkNodes fieldName abn decode nodes i).2.2 = i + attempts nodes
      ∧ List.Sublist ((walkNodes fieldName abn decode nodes i).2.1.map Segment.segment_id)
          (idsFrom i (attempts nodes)) := by
  intro nodes
  induction nodes with
  | nil => intro i; exact ⟨rfl, rfl, by simp [walkNodes, attempts, idsFrom]⟩
  | cons n rest ih =>
      intro i
      obtain ⟨s1, s2, s3⟩ := stepNode_spec fieldName abn decode n i
      obtain ⟨w1, w2, w3⟩ := ih ((stepNode fieldName abn decode n i).2.2)
      rw [s2] at w1 w2 w3
      have hatt : attempts (n :: rest) = nodeAttempts n + attempts rest := rfl
      have hids : idsFrom i (attempts (n :: rest))
          = idsFrom i (nodeAttempts n) ++ idsFrom (i + nodeAttempts n) (attempts rest) := by
        rw [hatt, idsFrom_append]
      refine ⟨?_, ?_, ?_⟩
      · show anchorIds ((stepNode fieldName abn decode n i).1
            ++ (walkNodes fieldName abn decode rest
                  (stepNode fieldName abn decode n i).2.2).1)
          = idsFrom i (attempts (n :: rest))
        rw [anchorIds_append, s1, s2, w1, hids]
      · show (walkNodes fieldName abn decode rest
            (stepNode fieldName abn decode n i).2.2).2.2 = i + attempts (n :: rest)
        rw [s2, w2, hatt]; omega
      · show List.Sublist
          (((stepNode fieldName abn decode n i).2.1
              ++ (walkNodes fieldName abn decode rest
                    (stepNode fieldName abn decode n i).2.2).2.1).map Segment.segment_id)
          (idsFrom i (attempts (n :: rest)))
        rw [List.map_append, s2, hids]
        exact s3.append w3

/-! ## Chunker lemmas -/

theorem range'_shift (step : Nat) :
    ∀ (n s : Nat), List.range' (s + step) n step = (List.range' s n step).map (· + step) := by
  intro n
  induction n with
  | zero => intro s; rfl
  | succ n ih =>
      intro s
      show (s + step) :: List.range' (s + step + step) n step = _
      rw [ih (s + step)]
      rfl

theorem chunksByOffset_cons {c : Nat} (hc : 0 < c) {α : Type} {xs : List α} (hx : xs ≠ []) :
    chunksByOffset c xs = xs.take c :: chunksByOffset c (xs.drop c) := by
  have hlen : 0 < xs.length := List.length_pos.2 hx
  have hcount : (xs.length + c - 1) / c = (((xs.drop c).length + c - 1) / c) + 1 := by
    rw [List.length_drop]
    rcases le_or_lt c xs.length with hcl | hcl
    · have h1 : xs.length - c + c - 1 = xs.length - 1 := by omega
      have h2 : xs.length + c - 1 = (xs.length - 1) + c := by omega
      rw [h1, h2, Nat.add_div_right _ hc]
    · have h1 : xs.length - c = 0 := by omega
      have h2 : xs.length + c - 1 = (xs.length - 1) + c := by omega
      rw [h1, h2, Nat.add_div_right _ hc]
      have h3 : (xs.length - 1) / c = 0 := Nat.div_eq_of_lt (by omega)
      have h4 : (0 + c - 1) / c = 0 := Nat.div_eq_of_lt (by omega)
      rw [h3, h4]
  unfold chunksByOffset
  rw [hcount]
  have hr : List.range' c (((xs.drop c).length + c - 1) / c) c
      = (List.range' 0 (((xs.drop c).length + c - 1) / c) c).map (· + c) := by
    simpa using range'_shift c (((xs.drop c).length + c - 1) / c) 0
  rw [show ∀ k, List.range' 0 (k + 1) c = 0 :: List.range' (0 + c) k c from fun k => rfl]
  rw [Nat.zero_add, List.map_cons, hr, List.map_map]
  refine congrArg₂ _ (by simp) ?_
  refine List.map_congr_left ?_
  intro off _
  show (xs.drop (off + c)).take c = ((xs.drop c).drop off).take c
  rw [List.drop_drop, Nat.add_comm off c]

theorem chunksByOffset_flatten {c : Nat} (hc : 0 < c) {α : Type} :
    ∀ (n : Nat) (xs : List α), xs.length ≤ n → (chunksByOffset c xs).flatten = xs := by
  intro n
  induction n with
  | zero =>
      intro xs hxs
      have : xs = [] := List.length_eq_zero.1 (by omega)
      subst this
      have : (0 + c - 1) / c = 0 := Nat.div_eq_of_lt (by omega)
      simp [chunksByOffset, this]
  | succ n ih =>
      intro xs hxs
      by_cases hx : xs = []
      · subst hx
        have : (0 + c - 1) / c = 0 := Nat.div_eq_of_lt (by omega)
        simp [chunksByOffset, this]
      · have hlen : 0 < xs.length := List.length_pos.2 hx
        rw [chunksByOffset_cons hc hx, List.flatten_cons,
            ih (xs.drop c) (by rw [List.length_drop]; omega),
            List.take_append_drop]

theorem chunksByOffset_length {c : Nat} {α : Type} (xs : List α) :
    (chunksByOffset c xs).length = (xs.length + c - 1) / c := by
  simp [chunksByOffset]

theorem chunksByOffset_mem_le {c : Nat} {α : Type} {xs : List α} {ch : List α}
    (h : ch ∈ chunksByOffset c xs) : ch.length ≤ c := by
  obtain ⟨off, _, rfl⟩ := List.mem_map.1 h
  simp [List.length_take]

/-! ## Injection and update-request lemmas -/

/-- Modelled from the claim wording, for comparison with the code's
`_inject_first_segments`: one `(part_name, binary_part)` pair per input
segment, in input order, with names `namePfx1, namePfx2, …` starting at `i`. -/
def spec_first_chunk_parts (namePfx : String) (i : Nat) :
    List Segment → List (String × BinaryPart)
  | [] => []
  | seg :: rest => (namePfx ++ decStr i, seg.binary_part) :: spec_first_chunk_parts namePfx (i + 1) rest

theorem injectFirstGo_parts (namePfx : String) :
    ∀ (segs : List Segment) (body : List BodyItem) (i : Nat),
      (injectFirstGo namePfx body i segs).2 = spec_first_chunk_parts namePfx i segs := by
  intro segs
  induction segs with
  | nil => intro body i; rfl
  | cons seg rest ih =>
      intro body i
      have h := ih ((replaceFirstAnchor body seg.segment_id
          (segment_content_html seg (namePfx ++ decStr i))).1) (i + 1)
      show (namePfx ++ decStr i, seg.binary_part)
            :: (injectFirstGo namePfx
                ((replaceFirstAnchor body seg.segment_id
                  (segment_content_html seg (namePfx ++ decStr i))).1) (i + 1) rest).2
          = (namePfx ++ decStr i, seg.binary_part)
            :: spec_first_chunk_parts namePfx (i + 1) rest
      rw [h]

theorem spec_first_chunk_parts_length (namePfx : String) :
    ∀ (segs : List Segment) (i : Nat),
      (spec_first_chunk_parts namePfx i segs).length = segs.length := by
  intro segs
  induction segs with
  | nil => intro i; rfl
  | cons seg rest ih => intro i; simp [spec_first_chunk_parts, ih]

theorem updateGo_parts_length (namePfx : String) :
    ∀ (segs : List Segment) (i : Nat), (updateGo namePfx i segs).2.length = segs.length := by
  intro segs
  induction segs with
  | nil => intro i; rfl
  | cons seg rest ih => intro i; simp [updateGo, ih]

/-! ## Retry-loop lemma -/

theorem requestLoop_unauthorized (policy : GraphRetryPolicy) (server : Nat → Nat) :
    ∀ (d fuel k : Nat),
      (∀ j, j < d → server (k + j) ∈ policy.retry_statuses) →
      server (k + d) = 401 →
      401 ∉ policy.retry_statuses →
      d < fuel →
      requestLoop policy server fuel k = RequestOutcome.unauthorized (k + d) := by
  intro d
  induction d with
  | zero =>
      intro fuel k _ h401 hnotin hd
      obtain ⟨f, rfl⟩ : ∃ f, fuel = f + 1 := ⟨fuel - 1, by omega⟩
      have hs : server k = 401 := by simpa using h401
      have hnot : server k ∉ policy.retry_statuses := by rw [hs]; exact hnotin
      show (if server k ∈ policy.retry_statuses then requestLoop policy server f (k + 1)
            else if server k = 401 then RequestOutcome.unauthorized k
            else if 400 ≤ server k then RequestOutcome.httpError (server k) k
            else RequestOutcome.success (server k) k) = RequestOutcome.unauthorized (k + 0)
      rw [if_neg hnot, if_pos hs]
      rfl
  | succ d ih =>
      intro fuel k hretry h401 hnotin hd
      obtain ⟨f, rfl⟩ : ∃ f, fuel = f + 1 := ⟨fuel - 1, by omega⟩
      have hs : server k ∈ policy.retry_statuses := by
        simpa using hretry 0 (by omega)
      have hrec := ih f (k + 1)
        (fun j hj => by
          have := hretry (j + 1) (by omega)
          simpa [Nat.add_assoc, Nat.add_comm 1 j] using this)
        (by rw [show k + 1 + d = k + (d + 1) by omega]; exact h401)
        hnotin (by omega)
      rw [show k + (d + 1) = k + 1 + d by omega]
      simpa [requestLoop, hs] using hrec

/-! ## Order-preservation and uniqueness lemmas -/

theorem filter_of_sublist_nodup :
    ∀ {l sub : List String}, List.Sublist sub l → l.Nodup →
      l.filter (fun s => decide (s ∈ sub)) = sub := by
  intro l sub hsub
  induction hsub with
  | slnil => intro _; rfl
  | cons a hs ih =>
      intro hl
      obtain ⟨hanotin, htail⟩ := List.nodup_cons.1 hl
      have hasub : a ∉ _ := fun ha => hanotin (hs.subset ha)
      simp only [List.filter_cons]
      rw [if_neg (by simpa using hasub)]
      exact ih htail
  | @cons₂ sub l a hs ih =>
      intro hl
      obtain ⟨hanotin, htail⟩ := List.nodup_cons.1 hl
      simp only [List.filter_cons]
      rw [if_pos (by simp)]
      refine congrArg _ ?_
      have hcong : l.filter (fun s => decide (s ∈ a :: sub))
          = l.filter (fun s => decide (s ∈ sub)) := by
        refine List.filter_congr ?_
        intro x hx
        have hxa : x ≠ a := fun h => hanotin (h ▸ hx)
        simp [List.mem_cons, hxa]
      rw [hcong]
      exact ih htail

theorem attref_to_segment_kind {fn sid : String} {abn : List (String × Attachment)}
    {s : Segment} (h : attref_to_segment fn sid abn = some s) :
    s.kind = SegKind.attachment := by
  unfold attref_to_segment at h
  cases habn : abn.lookup fn with
  | none => rw [habn] at h; cases h
  | some a => rw [habn] at h; cases h; rfl

theorem attrefLoop_kinds (abn : List (String × Attachment)) :
    ∀ (refs : List AttRefEl) (i : Nat) (seg : Segment),
      seg ∈ (attrefLoop abn refs i).2.1 → seg.kind = SegKind.attachment := by
  intro refs
  induction refs with
  | nil => intro i seg h; simp [attrefLoop] at h
  | cons a rest ih =>
      intro i seg h
      by_cases hfn : attrefFilename a = ""
      · rw [show attrefLoop abn (a :: rest) i = attrefLoop abn rest i by
          simp [attrefLoop, hfn]] at h
        exact ih i seg h
      · simp only [attrefLoop, if_neg hfn] at h
        cases hs : attref_to_segment (attrefFilename a) (segIdOf i) abn with
        | none => rw [hs] at h; exact ih (i + 1) seg h
        | some s =>
            rw [hs] at h
            rcases List.mem_cons.1 h with rfl | h2
            · exact attref_to_segment_kind hs
            · exact ih (i + 1) seg h2

theorem create_materials_ids_sublist (abn : List (String × Attachment))
    (decode : String → Option (List Nat)) :
    ∀ (fields : List (Option RichTextItem)) (i : Nat),
      ∃ k, List.Sublist
        ((create_materials_segments abn decode fields i).map Segment.segment_id)
        (idsFrom i k) := by
  intro fields
  induction fields with
  | nil => intro i; exact ⟨0, by simp [create_materials_segments, idsFrom]⟩
  | cons f rest ih =>
      intro i
      cases f with
      | none => exact ih i
      | some item =>
          cases hri : item.richtext with
          | none =>
              obtain ⟨k, hk⟩ := ih i
              refine ⟨k, ?_⟩
              have h0 : richtext_item_to_html_and_segment item abn decode i = ([], [], i) := by
                simp [richtext_item_to_html_and_segment, hri]
              show List.Sublist
                (((richtext_item_to_html_and_segment item abn decode i).2.1
                    ++ create_materials_segments abn decode rest
                        (richtext_item_to_html_and_segment item abn decode i).2.2).map
                  Segment.segment_id) _
              rw [h0]
              simpa using hk
          | some nodes =>
              have h0 : richtext_item_to_html_and_segment item abn decode i
                  = walkNodes (pyStrip (pyOrStr item.name "unknown")) abn decode nodes i := by
                simp [richtext_item_to_html_and_segment, hri]
              obtain ⟨w1, w2, w3⟩ :=
                walkNodes_spec (pyStrip (pyOrStr item.name "unknown")) abn decode nodes i
              obtain ⟨k, hk⟩ := ih (i + attempts nodes)
              refine ⟨attempts nodes + k, ?_⟩
              show List.Sublist
                (((richtext_item_to_html_and_segment item abn decode i).2.1
                    ++ create_materials_segments abn decode rest
                        (richtext_item_to_html_and_segment item abn decode i).2.2).map
                  Segment.segment_id) _
              rw [h0, List.map_append, idsFrom_append, w2]
              exact w3.append hk

/-! ## Witness material -/

/-- Concrete segment used to instantiate witnesses. -/
def sampleSeg (n : Nat) : Segment :=
  { segment_id := segIdOf n, kind := SegKind.image,
    binary_part := { kind := SegKind.image, filename := "x.png", content_type := "image/png",
                     data := [], origin_field := "Detail" } }

/-- Concrete 7-segment list used to instantiate witnesses. -/
def sampleSegs7 : List Segment :=
  [sampleSeg 1, sampleSeg 2, sampleSeg 3, sampleSeg 4, sampleSeg 5, sampleSeg 6, sampleSeg 7]

/-! ## Claims -/

/-- C1: for every non-empty segment list, the chunker of
`create_onenote_page` yields the first chunk `segments[0:C]` followed by the
remaining segments in groups of size at most `C`, in order; there are
`⌈N/C⌉` chunks, their concatenation is the original list, and with `C = 3`
and 7 segments the chunk sizes are `[3, 3, 1]`. -/
theorem claim_C1_chunking :
    ∀ (segs : List Segment), segs ≠ [] →
      (pageChunks segs).head? = some (segs.take MAX_BIN_PER_REQUEST)
      ∧ (pageChunks segs).length
          = (segs.length + MAX_BIN_PER_REQUEST - 1) / MAX_BIN_PER_REQUEST
      ∧ (∀ ch ∈ pageChunks segs, ch.length ≤ MAX_BIN_PER_REQUEST)
      ∧ (pageChunks segs).flatten = segs
      ∧ (segs.length = 7 → (pageChunks segs).map List.length = [3, 3, 1]) := by
  intro segs hne
  have hc : 0 < MAX_BIN_PER_REQUEST := by decide
  have hpc : pageChunks segs = chunksByOffset MAX_BIN_PER_REQUEST segs :=
    (chunksByOffset_cons hc hne).symm
  refine ⟨rfl, ?_, ?_, ?_, ?_⟩
  · rw [hpc, chunksByOffset_length]
  · intro ch hch
    rw [hpc] at hch
    exact chunksByOffset_mem_le hch
  · rw [hpc]
    exact chunksByOffset_flatten hc segs.length segs le_rfl
  · intro h7
    rw [hpc, chunksByOffset_cons hc hne]
    have hd1 : (segs.drop MAX_BIN_PER_REQUEST).length = 4 := by
      rw [List.length_drop, h7]
      decide
    have h2 : segs.drop MAX_BIN_PER_REQUEST ≠ [] := by
      intro h
      rw [h] at hd1
      simp at hd1
    rw [chunksByOffset_cons hc h2]
    have hd2 : ((segs.drop MAX_BIN_PER_REQUEST).drop MAX_BIN_PER_REQUEST).length = 1 := by
      rw [List.length_drop, hd1]
      decide
    have h3 : (segs.drop MAX_BIN_PER_REQUEST).drop MAX_BIN_PER_REQUEST ≠ [] := by
      intro h
      rw [h] at hd2
      simp at hd2
    rw [chunksByOffset_cons hc h3]
    have hd3 :
        (((segs.drop MAX_BIN_PER_REQUEST).drop MAX_BIN_PER_REQUEST).drop
            MAX_BIN_PER_REQUEST).length = 0 := by
      rw [List.length_drop, hd2]
      decide
    rw [List.length_eq_zero.1 hd3]
    rw [show chunksByOffset MAX_BIN_PER_REQUEST ([] : List Segment) = [] from rfl]
    simp [List.length_take, h7, hd1, hd2]
    decide

/-- C1 witness: the theorem applied to a concrete 7-segment list. -/
theorem claim_C1_chunking_witness :
    (pageChunks sampleSegs7).map List.length = [3, 3, 1]
    ∧ (pageChunks sampleSegs7).flatten = sampleSegs7 := by
  have h := claim_C1_chunking sampleSegs7 (by decide)
  exact ⟨h.2.2.2.2 (by decide), h.2.2.2.1⟩

/-- C2: every wire request `create_onenote_page` issues — the create request
and every append request — carries at most `MAX_BIN_PER_REQUEST = 3` binary
parts. -/
theorem claim_C2_binary_ceiling :
    ∀ (payload : PagePayload) (r : WireRequest),
      r ∈ create_onenote_page_requests payload →
      r.binCount ≤ MAX_BIN_PER_REQUEST := by
  intro payload r hr
  simp only [create_onenote_page_requests, List.mem_cons, List.mem_map] at hr
  rcases hr with rfl | ⟨chunk, hchunk, rfl⟩
  · show (inject_first_segments payload.body_html
        (payload.segment_list.take MAX_BIN_PER_REQUEST) "p").2.length ≤ MAX_BIN_PER_REQUEST
    rw [show (inject_first_segments payload.body_html
          (payload.segment_list.take MAX_BIN_PER_REQUEST) "p").2
        = (injectFirstGo "p" payload.body_html 1
            (payload.segment_list.take MAX_BIN_PER_REQUEST)).2 from rfl]
    rw [injectFirstGo_parts, spec_first_chunk_parts_length]
    simp [List.length_take]
  · show (updateGo "p" 1 chunk).2.length ≤ MAX_BIN_PER_REQUEST
    rw [updateGo_parts_length]
    exact chunksByOffset_mem_le hchunk

/-- C2 witness: the create request of a one-segment payload. -/
theorem claim_C2_binary_ceiling_witness :
    WireRequest.binCount
        (WireRequest.create
          (xhtmlOf "t" (renderBody (inject_first_segments [] [sampleSeg 1] "p").1))
          (inject_first_segments [] [sampleSeg 1] "p").2)
      ≤ MAX_BIN_PER_REQUEST :=
  claim_C2_binary_ceiling ⟨"t", [], [sampleSeg 1]⟩
    (WireRequest.create
      (xhtmlOf "t" (renderBody (inject_first_segments [] [sampleSeg 1] "p").1))
      (inject_first_segments [] [sampleSeg 1] "p").2)
    (by decide)

/-- C10: for every body and segment list, `_inject_first_segments` returns
exactly one `(part_name, binary_part)` pair per input segment, in input
order, named `p1 … pN`; the parts do not depend on the body, so a binary is
included even when its anchor placeholder is absent. -/
theorem claim_C10_first_chunk_parts :
    ∀ (body body2 : List BodyItem) (segs : List Segment),
      (inject_first_segments body segs).2 = spec_first_chunk_parts "p" 1 segs
      ∧ (inject_first_segments body segs).2 = (inject_first_segments body2 segs).2 := by
  intro body body2 segs
  constructor
  · exact injectFirstGo_parts "p" segs body 1
  · show (injectFirstGo "p" body 1 segs).2 = (injectFirstGo "p" body2 1 segs).2
    rw [injectFirstGo_parts "p" segs body 1, injectFirstGo_parts "p" segs body2 1]

/-- C8: a 401 response makes `_request_with_retry` fail immediately with no
further request, on any attempt — in particular on the first attempt — as
long as 401 is not configured as a retryable status (it is not in the
shipped `GraphRetryPolicy`). -/
theorem claim_C8_auth_no_retry :
    ∀ (policy : GraphRetryPolicy) (server : Nat → Nat) (k : Nat),
      k < policy.max_retries →
      (∀ j, j < k → server j ∈ policy.retry_statuses) →
      server k = 401 →
      401 ∉ policy.retry_statuses →
      request_with_retry policy server = RequestOutcome.unauthorized k := by
  intro policy server k hk hj h401 hnotin
  have h := requestLoop_unauthorized policy server k policy.max_retries 0
    (fun j hjk => by simpa using hj j hjk) (by simpa using h401) hnotin hk
  simpa using h

/-- C8 witness: a server answering 401 to the first request under the
default retry policy produces an immediate authentication failure with zero
retries. -/
theorem claim_C8_auth_no_retry_witness :
    request_with_retry {} (fun _ => 401) = RequestOutcome.unauthorized 0 :=
  claim_C8_auth_no_retry {} (fun _ => 401) 0 (by decide)
    (fun j hj => absurd hj (by omega)) rfl (by decide)


/-- C3: for every rich-field node sequence, the body contains exactly one
anchor-bearing placeholder per returned Segment, and those placeholders
appear in the body in the same order as the segments appear in the list:
restricting the placeholder-id sequence of the body to the segment ids
reproduces the segment-id list exactly, and each segment id occurs exactly
once among the placeholders. -/
theorem claim_C3_placeholder_correspondence :
    ∀ (nameAttr : Option String) (nodes : List RtChild)
      (abn : List (String × Attachment)) (decode : String → Option (List Nat)) (i : Nat),
      (anchorIds (richtext_item_to_html_and_segment ⟨nameAttr, some nodes⟩ abn decode i).1).filter
          (fun s => decide (s ∈ (richtext_item_to_html_and_segment ⟨nameAttr, some nodes⟩
              abn decode i).2.1.map Segment.segment_id))
        = (richtext_item_to_html_and_segment ⟨nameAttr, some nodes⟩ abn decode i).2.1.map
            Segment.segment_id
      ∧ ∀ seg ∈ (richtext_item_to_html_and_segment ⟨nameAttr, some nodes⟩ abn decode i).2.1,
          List.count seg.segment_id
            (anchorIds (richtext_item_to_html_and_segment ⟨nameAttr, some nodes⟩
              abn decode i).1) = 1 := by
  intro nameAttr nodes abn decode i
  have hrt : richtext_item_to_html_and_segment ⟨nameAttr, some nodes⟩ abn decode i
      = walkNodes (pyStrip (pyOrStr nameAttr "unknown")) abn decode nodes i := rfl
  obtain ⟨w1, w2, w3⟩ :=
    walkNodes_spec (pyStrip (pyOrStr nameAttr "unknown")) abn decode nodes i
  rw [hrt]
  constructor
  · rw [w1]
    exact filter_of_sublist_nodup w3 (idsFrom_nodup i (attempts nodes))
  · intro seg hseg
    rw [w1]
    refine List.count_eq_one_of_mem (idsFrom_nodup i (attempts nodes)) ?_
    exact w3.subset (List.mem_map_of_mem Segment.segment_id hseg)

/-- C3 witness: the exactly-once part applied to a concrete one-attachment
field. -/
theorem claim_C3_placeholder_correspondence_witness :
    List.count
        (Segment.segment_id ⟨"seg-001", SegKind.attachment,
          ⟨SegKind.attachment, "f.txt", "text/plain", [1], "$FILE", none, none⟩⟩)
        (anchorIds (richtext_item_to_html_and_segment
          ⟨some "Detail", some [RtChild.par [⟨some "f.txt", none⟩] none ""]⟩
          [("f.txt", ⟨"f.txt", some "text/plain", [1]⟩)] (fun _ => none) 1).1) = 1 :=
  (claim_C3_placeholder_correspondence (some "Detail")
      [RtChild.par [⟨some "f.txt", none⟩] none ""]
      [("f.txt", ⟨"f.txt", some "text/plain", [1]⟩)] (fun _ => none) 1).2
    ⟨"seg-001", SegKind.attachment,
      ⟨SegKind.attachment, "f.txt", "text/plain", [1], "$FILE", none, none⟩⟩
    (by decide)

/-- C4: the number of placeholders the walker emits equals the number of
attempted binary extractions, whether or not each succeeds; and for a
paragraph whose attachment reference cannot be resolved against the table,
the placeholder is still emitted but no Segment is produced. -/
theorem claim_C4_placeholder_count :
    (∀ (nameAttr : Option String) (nodes : List RtChild)
        (abn : List (String × Attachment)) (decode : String → Option (List Nat)) (i : Nat),
        (anchorIds (richtext_item_to_html_and_segment ⟨nameAttr, some nodes⟩
            abn decode i).1).length = attempts nodes)
    ∧ (∀ (nameAttr : Option String) (a : AttRefEl) (txt : String)
        (abn : List (String × Attachment)) (decode : String → Option (List Nat)) (i : Nat),
        attrefFilename a ≠ "" →
        abn.lookup (attrefFilename a) = none →
        richtext_item_to_html_and_segment ⟨nameAttr, some [RtChild.par [a] none txt]⟩
            abn decode i
          = ([BodyItem.anchor (segIdOf i)], [], i + 1)) := by
  constructor
  · intro nameAttr nodes abn decode i
    have hrt : richtext_item_to_html_and_segment ⟨nameAttr, some nodes⟩ abn decode i
        = walkNodes (pyStrip (pyOrStr nameAttr "unknown")) abn decode nodes i := rfl
    rw [hrt,
        (walkNodes_spec (pyStrip (pyOrStr nameAttr "unknown")) abn decode nodes i).1,
        length_idsFrom]
  · intro nameAttr a txt abn decode i hfn hlook
    have hseg : attref_to_segment (attrefFilename a) (segIdOf i) abn = none := by
      unfold attref_to_segment
      rw [hlook]
    show walkNodes (pyStrip (pyOrStr nameAttr "unknown")) abn decode
        [RtChild.par [a] none txt] i = _
    simp [walkNodes, stepNode, attrefLoop, hfn, hseg]

/-- C4 witness: a concrete unresolvable attachment reference still yields
its placeholder and no Segment. -/
theorem claim_C4_placeholder_count_witness :
    richtext_item_to_html_and_segment
        ⟨some "Detail", some [RtChild.par [⟨some "missing.xlsx", none⟩] none ""]⟩
        [] (fun _ => none) 1
      = ([BodyItem.anchor (segIdOf 1)], [], 2) :=
  claim_C4_placeholder_count.2 (some "Detail") ⟨some "missing.xlsx", none⟩ ""
    [] (fun _ => none) 1 (by decide) rfl

/-- C5 counterexample: anchor ids do not combine the field name or the kind
tag, and the counter is not per-field.  Walking a field named `Detail`
containing one picture and a field named `Agenda` containing one attachment
reference yields the same anchor id `seg-001` for both (different field
names, different kinds), and processing the two fields in one document
continues the counter across fields (`seg-001`, `seg-002`) instead of
restarting a per-field counter. -/
theorem claim_C5_counterexample :
    (richtext_item_to_html_and_segment
        ⟨some "Detail", some [RtChild.par [] (some ⟨none, none, [⟨"png", some "QUJD"⟩]⟩) ""]⟩
        [] (fun _ => some [9]) 1).2.1.map Segment.segment_id = ["seg-001"]
    ∧ (richtext_item_to_html_and_segment
        ⟨some "Agenda", some [RtChild.par [⟨some "f.xlsx", none⟩] none ""]⟩
        [("f.xlsx", ⟨"f.xlsx", some "application/zip", [7]⟩)] (fun _ => some [9]) 1).2.1.map
          Segment.segment_id = ["seg-001"]
    ∧ (richtext_item_to_html_and_segment
        ⟨some "Detail", some [RtChild.par [] (some ⟨none, none, [⟨"png", some "QUJD"⟩]⟩) ""]⟩
        [] (fun _ => some [9]) 1).2.1.map Segment.kind = [SegKind.image]
    ∧ (richtext_item_to_html_and_segment
        ⟨some "Agenda", some [RtChild.par [⟨some "f.xlsx", none⟩] none ""]⟩
        [("f.xlsx", ⟨"f.xlsx", some "application/zip", [7]⟩)] (fun _ => some [9]) 1).2.1.map
          Segment.kind = [SegKind.attachment]
    ∧ (create_materials_all_segments
        [("f.xlsx", ⟨"f.xlsx", some "application/zip", [7]⟩)] (fun _ => some [9])
        [some ⟨some "Detail",
            some [RtChild.par [] (some ⟨none, none, [⟨"png", some "QUJD"⟩]⟩) ""]⟩,
         some ⟨some "Agenda", some [RtChild.par [⟨some "f.xlsx", none⟩] none ""]⟩]).map
          Segment.segment_id = ["seg-001", "seg-002"] := by
  decide

/-- C5 as amended: every anchor id is derived deterministically from the
single document-wide sequence counter alone — the id of the `k`-th attempt
of a walk starting at counter `i` is `segIdOf (i + k)`, i.e. `seg-` plus the
zero-padded counter — and the ids are independent of the field name (and of
the segment kind, which does not occur in the formula).  Determinism (the
walker is a pure function of its input) makes re-walking the same source
yield identical anchors. -/
theorem claim_C5_amended_anchor_ids :
    ∀ (nameAttr nameAttr2 : Option String) (nodes : List RtChild)
      (abn : List (String × Attachment)) (decode : String → Option (List Nat)) (i : Nat),
      anchorIds (richtext_item_to_html_and_segment ⟨nameAttr, some nodes⟩ abn decode i).1
        = idsFrom i (attempts nodes)
      ∧ anchorIds (richtext_item_to_html_and_segment ⟨nameAttr, some nodes⟩ abn decode i).1
          = anchorIds (richtext_item_to_html_and_segment ⟨nameAttr2, some nodes⟩
              abn decode i).1 := by
  intro nameAttr nameAttr2 nodes abn decode i
  have h1 : anchorIds (richtext_item_to_html_and_segment ⟨nameAttr, some nodes⟩
      abn decode i).1 = idsFrom i (attempts nodes) :=
    (walkNodes_spec (pyStrip (pyOrStr nameAttr "unknown")) abn decode nodes i).1
  have h2 : anchorIds (richtext_item_to_html_and_segment ⟨nameAttr2, some nodes⟩
      abn decode i).1 = idsFrom i (attempts nodes) :=
    (walkNodes_spec (pyStrip (pyOrStr nameAttr2 "unknown")) abn decode nodes i).1
  exact ⟨h1, h1.trans h2.symm⟩

/-- C6: across all rich fields of one document, the segment ids emitted by
`create_materials_from_dxl` are pairwise distinct. -/
theorem claim_C6_anchor_ids_unique :
    ∀ (abn : List (String × Attachment)) (decode : String → Option (List Nat))
      (fields : List (Option RichTextItem)),
      ((create_materials_all_segments abn decode fields).map Segment.segment_id).Nodup := by
  intro abn decode fields
  obtain ⟨k, hk⟩ := create_materials_ids_sublist abn decode fields 1
  exact List.Nodup.sublist hk (idsFrom_nodup 1 k)

/-- C7 counterexample: for a paragraph with an embedded picture whose
encoding (`bmp`) is unsupported, the walker still emits the anchor
placeholder, produces no Segment, and emits no textual "unsupported" marker
— the whole output at this input is exactly one empty placeholder.  The
claim instead predicts a textual marker and no placeholder. -/
theorem claim_C7_counterexample :
    richtext_item_to_html_and_segment
        ⟨some "Detail", some [RtChild.par [] (some ⟨none, none, [⟨"bmp", some "AAAA"⟩]⟩) "fig1"]⟩
        [] (fun _ => none) 1
      = ([BodyItem.anchor "seg-001"], [], 2) := by
  decide

/-- C7 as amended: when the picture extraction fails (unsupported encoding
or undecodable binary), the walker still emits the placeholder, produces no
Segment, and emits nothing else — no textual marker. -/
theorem claim_C7_amended_unsupported_picture :
    ∀ (nameAttr : Option String) (abn : List (String × Attachment))
      (decode : String → Option (List Nat)) (p : PictureEl) (txt : String) (i : Nat),
      picture_to_segment decode (pyStrip (pyOrStr nameAttr "unknown")) (segIdOf i) p = none →
      richtext_item_to_html_and_segment ⟨nameAttr, some [RtChild.par [] (some p) txt]⟩
          abn decode i
        = ([BodyItem.anchor (segIdOf i)], [], i + 1) := by
  intro nameAttr abn decode p txt i hp
  show walkNodes (pyStrip (pyOrStr nameAttr "unknown")) abn decode
      [RtChild.par [] (some p) txt] i = _
  simp [walkNodes, stepNode, hp]

/-- C7 amended witness: the unsupported-`bmp` picture instance. -/
theorem claim_C7_amended_unsupported_picture_witness :
    richtext_item_to_html_and_segment
        ⟨some "Detail", some [RtChild.par [] (some ⟨none, none, [⟨"bmp", some "AAAA"⟩]⟩) "x"]⟩
        [] (fun _ => none) 1
      = ([BodyItem.anchor (segIdOf 1)], [], 2) :=
  claim_C7_amended_unsupported_picture (some "Detail") [] (fun _ => none)
    ⟨none, none, [⟨"bmp", some "AAAA"⟩]⟩ "x" 1 (by decide)

/-- C9 counterexample: for a paragraph with an attachment reference and
nonempty leading label text, the walker emits only the placeholder (plus the
Segment); the label text `Label` is not rendered anywhere in the output,
contradicting the claim that the label is emitted first. -/
theorem claim_C9_counterexample :
    richtext_item_to_html_and_segment
          ⟨some "Detail", some [RtChild.par [⟨some "f.txt", none⟩] none "Label"]⟩
          [("f.txt", ⟨"f.txt", some "text/plain", [1]⟩)] (fun _ => none) 1
        = ([BodyItem.anchor "seg-001"],
           [⟨"seg-001", SegKind.attachment,
             ⟨SegKind.attachment, "f.txt", "text/plain", [1], "$FILE", none, none⟩⟩], 2)
    ∧ BodyItem.text "Label" ∉ (richtext_item_to_html_and_segment
          ⟨some "Detail", some [RtChild.par [⟨some "f.txt", none⟩] none "Label"]⟩
          [("f.txt", ⟨"f.txt", some "text/plain", [1]⟩)] (fun _ => none) 1).1 := by
  constructor
  · decide
  · decide

/-- C9 as amended: for a paragraph containing attachment references, the
walker emits exactly one placeholder per reference with a nonempty resolved
filename, in order, and nothing else — in particular the leading label text of the
paragraph is not emitted; every Segment produced is an Attachment
segment. -/
theorem claim_C9_amended_attref_paragraph :
    ∀ (nameAttr : Option String) (refs : List AttRefEl) (pic : Option PictureEl)
      (txt : String) (abn : List (String × Attachment))
      (decode : String → Option (List Nat)) (i : Nat),
      refs ≠ [] →
      (richtext_item_to_html_and_segment ⟨nameAttr, some [RtChild.par refs pic txt]⟩
          abn decode i).1
        = (idsFrom i (parAttemptCount refs)).map BodyItem.anchor
      ∧ ∀ seg ∈ (richtext_item_to_html_and_segment ⟨nameAttr, some [RtChild.par refs pic txt]⟩
          abn decode i).2.1, seg.kind = SegKind.attachment := by
  intro nameAttr refs pic txt abn decode i hrefs
  have hwalk : richtext_item_to_html_and_segment ⟨nameAttr, some [RtChild.par refs pic txt]⟩
      abn decode i
      = ((attrefLoop abn refs i).1, (attrefLoop abn refs i).2.1, (attrefLoop abn refs i).2.2) := by
    show walkNodes (pyStrip (pyOrStr nameAttr "unknown")) abn decode
        [RtChild.par refs pic txt] i = _
    simp [walkNodes, stepNode, hrefs]
  rw [hwalk]
  refine ⟨(attrefLoop_spec abn refs i).1, ?_⟩
  intro seg hseg
  exact attrefLoop_kinds abn refs i seg hseg

/-- C9 amended witness: a concrete resolvable reference with label text. -/
theorem claim_C9_amended_attref_paragraph_witness :
    (richtext_item_to_html_and_segment
        ⟨some "Detail", some [RtChild.par [⟨some "f.txt", none⟩] none "Label"]⟩
        [("f.txt", ⟨"f.txt", some "text/plain", [1]⟩)] (fun _ => none) 1).1
      = (idsFrom 1 (parAttemptCount [⟨some "f.txt", none⟩])).map BodyItem.anchor :=
  (claim_C9_amended_attref_paragraph (some "Detail") [⟨some "f.txt", none⟩] none "Label"
    [("f.txt", ⟨"f.txt", some "text/plain", [1]⟩)] (fun _ => none) 1 (by decide)).1

end NotesToOneNote
